import Mathlib

/-!
Verification of the codex-annex agent-orchestration runtime core.

This file shallowly embeds the Rust sources (taskset.rs, task.rs,
hooks_yaml.rs, layered_config.rs, yaml_config.rs, compact.rs,
session_logs.rs, todo.rs) as pure Lean definitions and proves or refutes
the specification claims about them.  Stateful Rust code (the hook depth
counter, the to-do store, the runner loops) is rendered as explicit state
passing; fallible code returns `Except`; injected bridge closures become
function-valued parameters; observable actions (hook emissions, bridge
invocations, UI sends) are collected into explicit traces.
-/

namespace CodexAnnex

/-- Shallow embedding of `serde_json::Value`.  Numbers are collapsed to
`Int`: none of the verified code inspects numeric payloads. -/
inductive Json where
  | null : Json
  | bool (b : Bool) : Json
  | num (n : Int) : Json
  | str (s : String) : Json
  | arr (xs : List Json) : Json
  | obj (fields : List (String × Json)) : Json

/-- Model of `BTreeMap<String, α>`: a key-to-value lookup function.
Iteration order is irrelevant to every verified claim. -/
def MapS (α : Type) : Type := String → Option α

/-- The empty map. -/
def MapS.empty {α : Type} : MapS α := fun _ => none

/-- A map holding exactly the bindings of an association list
(first binding wins). -/
def MapS.ofList {α : Type} (l : List (String × α)) : MapS α :=
  fun k => (l.find? (fun p => p.1 == k)).map (fun p => p.2)

/-- `for (k,v) in b { a.insert(k, v) }`: every entry of `b` is inserted
into `a`, replacing same-keyed entries. -/
def MapS.mergeInto {α : Type} (a b : MapS α) : MapS α :=
  fun k => match b k with
    | some v => some v
    | none => a k

/-! ### yaml_config.rs -/

namespace YamlCfg

/-- `ModelTarget` from yaml_config.rs. -/
structure ModelTarget where
  name : String
  base_url : Option String
  api_key_env : Option String
  extra_headers : MapS String

/-- `ModelsConfig` from yaml_config.rs. -/
structure ModelsConfig where
  default : ModelTarget
  overrides : MapS ModelTarget
  profiles : MapS ModelTarget

/-- `ApprovalMode` from yaml_config.rs. -/
inductive ApprovalMode where
  | OnRequest | OnFailure | UnlessTrusted | Never
deriving DecidableEq

/-- `SandboxConfig` from yaml_config.rs (paths rendered as strings). -/
structure SandboxConfig where
  mode : Option String
  network_access : Option Bool
  writable_roots : List String

/-- `ShellConfig` from yaml_config.rs. -/
structure ShellConfig where
  approval : ApprovalMode
  allowlist_roots : List String
  denylist_roots : List String
  env_inherit : Option String
  env_exclude_patterns : List String

/-- `UiConfig` from yaml_config.rs. -/
structure UiConfig where
  command_palette : Bool
  status_bar : Bool

/-- `HistoryConfig` from yaml_config.rs. -/
structure HistoryConfig where
  persist : Option String

/-- `TodoConfig` from yaml_config.rs. -/
structure TodoConfig where
  dir : Option String

/-- `CompactConfig` from yaml_config.rs (`u64`/`usize` as `Nat`). -/
structure CompactConfig where
  auto_enable : Bool
  auto_min_interval_secs : Nat
  auto_on_task_end : Bool
  max_context_chars : Nat
  max_files : Nat
  include_globs_default : List String

/-- `SessionsConfig` from yaml_config.rs. -/
structure SessionsConfig where
  dir : Option String
  auto_purge_days : Option Nat
  resume_on_launch : Bool

/-- `HooksConfig` from yaml_config.rs. -/
structure HooksConfig where
  recursion_limit : Option Nat
  dirs : List String

/-- `SlashConfigMeta` from yaml_config.rs. -/
structure SlashConfigMeta where
  dirs : List String

/-- `Config` from yaml_config.rs. -/
structure Config where
  models : ModelsConfig
  sandbox : SandboxConfig
  shell : ShellConfig
  ui : UiConfig
  history : HistoryConfig
  todo : TodoConfig
  compact : CompactConfig
  sessions : SessionsConfig
  hooks : HooksConfig
  slash : SlashConfigMeta

/-- `ModelRole` from yaml_config.rs. -/
inductive ModelRole where
  | Chat | Title | SessionName | Compact | MetaPrompt | TaskStatus
deriving DecidableEq

/-- `ModelRole::key` from yaml_config.rs. -/
def ModelRole.key : ModelRole → String
  | .Chat => "chat"
  | .Title => "title"
  | .SessionName => "session_name"
  | .Compact => "compact"
  | .MetaPrompt => "meta_prompt"
  | .TaskStatus => "task_status"

/-- `ConfigManager::pick_model` from yaml_config.rs: the overrides entry
under the role's key if present, else `models.default`. -/
def pick_model (cfg : Config) (role : ModelRole) : ModelTarget :=
  match cfg.models.overrides role.key with
  | some mt => mt
  | none => cfg.models.default

/-- Modelled from the spec: "`pick_model(role)` returns `overrides[role.key]`
if present, else `models.default`."  Spec-side reference definition for the
refinement claim C3, over the yaml_config.rs config type. -/
def pick_model_spec (cfg : Config) (role : ModelRole) : ModelTarget :=
  match cfg.models.overrides role.key with
  | some mt => mt
  | none => cfg.models.default

/-- `merge` from yaml_config.rs, field by field in source order. -/
def merge (a b : Config) : Config :=
  { models :=
      { default := if b.models.default.name.isEmpty then a.models.default else b.models.default
        overrides := a.models.overrides.mergeInto b.models.overrides
        profiles := a.models.profiles.mergeInto b.models.profiles }
    sandbox :=
      { mode := if b.sandbox.mode.isSome then b.sandbox.mode else a.sandbox.mode
        network_access := if b.sandbox.network_access.isSome then b.sandbox.network_access else a.sandbox.network_access
        writable_roots := if b.sandbox.writable_roots.isEmpty then a.sandbox.writable_roots else b.sandbox.writable_roots }
    shell :=
      { approval := b.shell.approval
        allowlist_roots := if b.shell.allowlist_roots.isEmpty then a.shell.allowlist_roots else b.shell.allowlist_roots
        denylist_roots := if b.shell.denylist_roots.isEmpty then a.shell.denylist_roots else b.shell.denylist_roots
        env_inherit := if b.shell.env_inherit.isSome then b.shell.env_inherit else a.shell.env_inherit
        env_exclude_patterns := if b.shell.env_exclude_patterns.isEmpty then a.shell.env_exclude_patterns else b.shell.env_exclude_patterns }
    ui :=
      { command_palette := a.ui.command_palette || b.ui.command_palette
        status_bar := a.ui.status_bar || b.ui.status_bar }
    history :=
      { persist := if b.history.persist.isSome then b.history.persist else a.history.persist }
    todo :=
      { dir := if b.todo.dir.isSome then b.todo.dir else a.todo.dir }
    compact :=
      { auto_enable := if b.compact.auto_enable then true else a.compact.auto_enable
        auto_min_interval_secs := if b.compact.auto_min_interval_secs != 0 then b.compact.auto_min_interval_secs else a.compact.auto_min_interval_secs
        auto_on_task_end := if b.compact.auto_on_task_end then true else a.compact.auto_on_task_end
        max_context_chars := if b.compact.max_context_chars != 0 then b.compact.max_context_chars else a.compact.max_context_chars
        max_files := if b.compact.max_files != 0 then b.compact.max_files else a.compact.max_files
        include_globs_default := if b.compact.include_globs_default.isEmpty then a.compact.include_globs_default else b.compact.include_globs_default }
    sessions :=
      { dir := if b.sessions.dir.isSome then b.sessions.dir else a.sessions.dir
        auto_purge_days := if b.sessions.auto_purge_days.isSome then b.sessions.auto_purge_days else a.sessions.auto_purge_days
        resume_on_launch := a.sessions.resume_on_launch || b.sessions.resume_on_launch }
    hooks :=
      { recursion_limit := if b.hooks.recursion_limit.isSome then b.hooks.recursion_limit else a.hooks.recursion_limit
        dirs := if b.hooks.dirs.isEmpty then a.hooks.dirs else b.hooks.dirs }
    slash :=
      { dirs := if b.slash.dirs.isEmpty then a.slash.dirs else b.slash.dirs } }

end YamlCfg

/-! ### layered_config.rs -/

namespace LayeredCfg

/-- `ModelConfig` (legacy knob) from layered_config.rs. -/
structure ModelConfig where
  name : Option String
  reasoning_effort : Option String
  reasoning_summary : Option String

/-- `ModelTarget` from layered_config.rs (adds `api_token_env`). -/
structure ModelTarget where
  name : String
  base_url : Option String
  api_key_env : Option String
  api_token_env : Option String
  extra_headers : MapS String

/-- `ModelsConfig` from layered_config.rs. -/
structure ModelsConfig where
  default : ModelTarget
  overrides : MapS ModelTarget
  profiles : MapS ModelTarget

/-- `ApprovalMode` from layered_config.rs. -/
inductive ApprovalMode where
  | OnRequest | OnFailure | UnlessTrusted | Never
deriving DecidableEq

/-- `SandboxConfig` from layered_config.rs. -/
structure SandboxConfig where
  mode : Option String
  network_access : Option Bool
  writable_roots : List String

/-- `ShellConfig` from layered_config.rs. -/
structure ShellConfig where
  approval : ApprovalMode
  allowlist_roots : List String
  denylist_roots : List String
  environment_inherit : Option String
  env_exclude_patterns : List String

/-- `McpServer` from layered_config.rs. -/
structure McpServer where
  enabled : Bool
  transport : String
  command : Option String
  args : List String
  env : MapS String
  host : Option String
  port : Option Nat
  scope : Option String

/-- `McpConfig` from layered_config.rs. -/
structure McpConfig where
  servers : MapS McpServer

/-- `UiConfig` from layered_config.rs. -/
structure UiConfig where
  command_palette : Bool
  status_bar : Bool
  screen_reader : Bool
  kitty_protocol : Bool

/-- `HistoryConfig` from layered_config.rs. -/
structure HistoryConfig where
  persist : Option String

/-- `TodoConfig` from layered_config.rs. -/
structure TodoConfig where
  path : Option String

/-- `CompactConfig` from layered_config.rs. -/
structure CompactConfig where
  auto_enable : Bool
  auto_min_interval_secs : Nat
  auto_on_task_end : Bool
  max_context_chars : Nat
  max_files : Nat
  include_globs_default : List String

/-- `SessionsConfig` from layered_config.rs (adds `write_mode`). -/
structure SessionsConfig where
  dir : Option String
  auto_purge_days : Option Nat
  resume_on_launch : Bool
  write_mode : Option String

/-- `HooksConfig` from layered_config.rs. -/
structure HooksConfig where
  recursion_limit : Option Nat
  dirs : List String

/-- `SlashConfigMeta` from layered_config.rs. -/
structure SlashConfigMeta where
  dirs : List String

/-- `Config` from layered_config.rs. -/
structure Config where
  model : ModelConfig
  models : ModelsConfig
  sandbox : SandboxConfig
  shell : ShellConfig
  mcp : McpConfig
  ui : UiConfig
  history : HistoryConfig
  todo : TodoConfig
  compact : CompactConfig
  sessions : SessionsConfig
  hooks : HooksConfig
  slash : SlashConfigMeta

/-- `ModelRole` from layered_config.rs. -/
inductive ModelRole where
  | Chat | Title | SessionName | Compact | MetaPrompt | TaskStatus
deriving DecidableEq

/-- `ConfigManager::pick_model` from layered_config.rs: the role is first
translated to an optional key (`Chat` maps to `None`); only a `Some` key
consults `models.overrides`. -/
def pick_model (cfg : Config) (role : ModelRole) : ModelTarget :=
  let key : Option String :=
    match role with
    | .Chat => none
    | .Title => some "title"
    | .SessionName => some "session_name"
    | .Compact => some "compact"
    | .MetaPrompt => some "meta_prompt"
    | .TaskStatus => some "task_status"
  match key with
  | some k =>
      match cfg.models.overrides k with
      | some t => t
      | none => cfg.models.default
  | none => cfg.models.default

/-- Modelled from the spec: "`pick_model(role)` returns `overrides[role.key]`
if present, else `models.default`", with the role keys of §3 (chat, title,
session_name, compact, meta_prompt, task_status).  Spec-side reference
definition for the refinement claim C3. -/
def pick_model_spec (cfg : Config) (role : ModelRole) : ModelTarget :=
  let key : String :=
    match role with
    | .Chat => "chat"
    | .Title => "title"
    | .SessionName => "session_name"
    | .Compact => "compact"
    | .MetaPrompt => "meta_prompt"
    | .TaskStatus => "task_status"
  match cfg.models.overrides key with
  | some t => t
  | none => cfg.models.default

/-- `merge` from layered_config.rs, field by field in source order. -/
def merge (a b : Config) : Config :=
  { model :=
      { name := if b.model.name.isSome then b.model.name else a.model.name
        reasoning_effort := if b.model.reasoning_effort.isSome then b.model.reasoning_effort else a.model.reasoning_effort
        reasoning_summary := if b.model.reasoning_summary.isSome then b.model.reasoning_summary else a.model.reasoning_summary }
    models :=
      { default := if b.models.default.name.isEmpty then a.models.default else b.models.default
        overrides := a.models.overrides.mergeInto b.models.overrides
        profiles := a.models.profiles.mergeInto b.models.profiles }
    sandbox :=
      { mode := if b.sandbox.mode.isSome then b.sandbox.mode else a.sandbox.mode
        network_access := if b.sandbox.network_access.isSome then b.sandbox.network_access else a.sandbox.network_access
        writable_roots := if b.sandbox.writable_roots.isEmpty then a.sandbox.writable_roots else b.sandbox.writable_roots }
    shell :=
      { approval := b.shell.approval
        allowlist_roots := if b.shell.allowlist_roots.isEmpty then a.shell.allowlist_roots else b.shell.allowlist_roots
        denylist_roots := if b.shell.denylist_roots.isEmpty then a.shell.denylist_roots else b.shell.denylist_roots
        environment_inherit := if b.shell.environment_inherit.isSome then b.shell.environment_inherit else a.shell.environment_inherit
        env_exclude_patterns := if b.shell.env_exclude_patterns.isEmpty then a.shell.env_exclude_patterns else b.shell.env_exclude_patterns }
    mcp := { servers := a.mcp.servers.mergeInto b.mcp.servers }
    ui :=
      { command_palette := a.ui.command_palette || b.ui.command_palette
        status_bar := a.ui.status_bar || b.ui.status_bar
        screen_reader := a.ui.screen_reader || b.ui.screen_reader
        kitty_protocol := a.ui.kitty_protocol || b.ui.kitty_protocol }
    history :=
      { persist := if b.history.persist.isSome then b.history.persist else a.history.persist }
    todo :=
      { path := if b.todo.path.isSome then b.todo.path else a.todo.path }
    compact :=
      { auto_enable := a.compact.auto_enable || b.compact.auto_enable
        auto_min_interval_secs := if b.compact.auto_min_interval_secs != 0 then b.compact.auto_min_interval_secs else a.compact.auto_min_interval_secs
        auto_on_task_end := a.compact.auto_on_task_end || b.compact.auto_on_task_end
        max_context_chars := if b.compact.max_context_chars != 0 then b.compact.max_context_chars else a.compact.max_context_chars
        max_files := if b.compact.max_files != 0 then b.compact.max_files else a.compact.max_files
        include_globs_default := if b.compact.include_globs_default.isEmpty then a.compact.include_globs_default else b.compact.include_globs_default }
    sessions :=
      { dir := if b.sessions.dir.isSome then b.sessions.dir else a.sessions.dir
        auto_purge_days := if b.sessions.auto_purge_days.isSome then b.sessions.auto_purge_days else a.sessions.auto_purge_days
        resume_on_launch := a.sessions.resume_on_launch || b.sessions.resume_on_launch
        write_mode := if b.sessions.write_mode.isSome then b.sessions.write_mode else a.sessions.write_mode }
    hooks :=
      { recursion_limit := if b.hooks.recursion_limit.isSome then b.hooks.recursion_limit else a.hooks.recursion_limit
        dirs := if b.hooks.dirs.isEmpty then a.hooks.dirs else b.hooks.dirs }
    slash :=
      { dirs := if b.slash.dirs.isEmpty then a.slash.dirs else b.slash.dirs } }

end LayeredCfg

/-! ### hooks_yaml.rs -/

namespace HY

/-- `HookEvent` from hooks_yaml.rs. -/
inductive HookEvent where
  | PreToolUse (tool : String) (args : Json)
  | PostToolUse (tool : String) (result : Json)
  | PreExec (cmd : String) (argv : List String)
  | PostExec (cmd : String) (argv : List String) (status : Int)
  | PreMcp (server : String) (method : String) (payload : Json)
  | PostMcp (server : String) (method : String) (payload : Json)
  | TaskStart (task_name : String)
  | TaskProgress (task_name : String) (status_line : String)
  | TaskEnd (task_name : String) (success : Bool)

/-- `HookDecision` from hooks_yaml.rs. -/
inductive HookDecision where
  | Continue
  | Deny (reason : String)

/-- `HookAction` from hooks_yaml.rs. -/
inductive HookAction where
  | Exec (cmd : String) (args : List String)
  | Prompt (model_profile : Option String) (instruction : String) (max_tokens : Option Nat)

/-- `HookRule` from hooks_yaml.rs. -/
structure HookRule where
  name : String
  when : List String
  actions : List HookAction
  deny_on_fail : Bool
  enabled : Bool

/-- `HookRegistry` from hooks_yaml.rs; the shared `depth: Arc<Mutex<usize>>`
counter is passed explicitly to `emit` instead. -/
structure HookRegistry where
  rules : List HookRule
  recursion_limit : Nat
  cfg : YamlCfg.Config

/-- The event-to-string table of `rule_matches` from hooks_yaml.rs. -/
def eventType : HookEvent → String
  | .PreToolUse .. => "pre_tool_use"
  | .PostToolUse .. => "post_tool_use"
  | .PreExec .. => "pre_exec"
  | .PostExec .. => "post_exec"
  | .PreMcp .. => "pre_mcp"
  | .PostMcp .. => "post_mcp"
  | .TaskStart .. => "task_start"
  | .TaskProgress .. => "task_progress"
  | .TaskEnd .. => "task_end"

/-- `rule_matches` from hooks_yaml.rs. -/
def rule_matches (rule : HookRule) (ev : HookEvent) : Bool :=
  rule.when.any (fun w => w == eventType ev)

/-- Outcome of spawning a hook `Exec` action's child process:
`Except` error for a spawn failure, otherwise `status.success()`.
The OS is a parameter of the model. -/
def ExecEnv : Type := String → List String → Except String Bool

/-- Result of running the actions of one rule, together with the list of
actions that actually ran. -/
structure ActionsOut where
  result : Except String (Option HookDecision)
  ran : List HookAction

/-- The inner action loop of `emit_inner` for a single rule `r`:
an `Exec` action whose child errors propagates the error; a failed child
with `deny_on_fail` returns `Deny`; a `Prompt` action only selects a model
(via profiles or `pick_model(Chat)`) and has no observable effect. -/
def runActions (cfg : YamlCfg.Config) (env : ExecEnv) (r : HookRule) :
    List HookAction → ActionsOut
  | [] => { result := .ok none, ran := [] }
  | a :: rest =>
    match a with
    | .Exec cmd args =>
      match env cmd args with
      | .error e => { result := .error e, ran := [a] }
      | .ok success =>
        if !success && r.deny_on_fail then
          { result := .ok (some (.Deny ("hook " ++ r.name ++ " exec failed"))), ran := [a] }
        else
          let out := runActions cfg env r rest
          { result := out.result, ran := a :: out.ran }
    | .Prompt model_profile _ _ =>
      let _model := match model_profile with
        | some p =>
          match cfg.models.profiles p with
          | some t => t
          | none => YamlCfg.pick_model cfg .Chat
        | none => YamlCfg.pick_model cfg .Chat
      let out := runActions cfg env r rest
      { result := out.result, ran := a :: out.ran }

/-- `emit_inner` from hooks_yaml.rs: visit rules in load order, skipping
disabled and non-matching ones, running each matched rule's actions;
an action error propagates, a `Deny` returns immediately, otherwise the
final decision is `Continue`. -/
def emit_inner (reg : HookRegistry) (env : ExecEnv) (ev : HookEvent) :
    List HookRule → ActionsOut
  | [] => { result := .ok none, ran := [] }
  | r :: rest =>
    if !r.enabled then emit_inner reg env ev rest
    else if !rule_matches r ev then emit_inner reg env ev rest
    else
      let out := runActions reg.cfg env r r.actions
      match out.result with
      | .error e => { result := .error e, ran := out.ran }
      | .ok (some d) => { result := .ok (some d), ran := out.ran }
      | .ok none =>
        let out₂ := emit_inner reg env ev rest
        { result := out₂.result, ran := out.ran ++ out₂.ran }

/-- What one call of `HookRegistry::emit` does to the world: its returned
decision, the final value of the shared depth counter, the counter's value
while `emit_inner` ran (`none` when the guard short-circuited), and the
actions that ran. -/
structure EmitOut where
  result : Except String HookDecision
  finalDepth : Nat
  during : Option Nat
  ran : List HookAction

/-- `HookRegistry::emit` from hooks_yaml.rs with the shared depth counter
passed explicitly: if `depth >= recursion_limit` it returns `Continue`
immediately; otherwise the counter is incremented, `emit_inner` runs, and
the counter is decremented again regardless of `emit_inner`'s outcome. -/
def emit (reg : HookRegistry) (env : ExecEnv) (depth : Nat) (ev : HookEvent) : EmitOut :=
  if depth ≥ reg.recursion_limit then
    { result := .ok .Continue, finalDepth := depth, during := none, ran := [] }
  else
    let inner := emit_inner reg env ev reg.rules
    { result :=
        match inner.result with
        | .error e => .error e
        | .ok (some d) => .ok d
        | .ok none => .ok .Continue
      finalDepth := depth + 1 - 1
      during := some (depth + 1)
      ran := inner.ran }

end HY

/-! ### taskset.rs (the Task-Set Scheduler) -/

namespace TS

/-- `TaskStep` from taskset.rs. -/
inductive TaskStep where
  | Chat (prompt : String) (model_profile : Option String)
  | Exec (cmd : String) (args : List String)
  | McpCall (server : String) (method : String) (payload : Json)
  | Git (action : String) (args : List String)

/-- `TaskSpec` from taskset.rs. -/
structure TaskSpec where
  id : String
  name : String
  model_profile : Option String
  steps : List TaskStep

/-- `TaskSetSpec` from taskset.rs. -/
structure TaskSetSpec where
  set_id : String
  title : String
  mode : String
  tasks : List TaskSpec

/-- `UiEvent` from taskset.rs. -/
inductive UiEvent where
  | TaskSetStart (set_id : String) (title : String)
  | TaskStart (set_id : String) (task_id : String) (model_label : String)
  | TaskProgress (set_id : String) (task_id : String) (line : String)
  | TaskEnd (set_id : String) (task_id : String) (ok : Bool)
  | TaskSetEnd (set_id : String) (ok : Bool)

/-- The three injected bridges of `TaskSetRunner` (deterministic model:
each call's outcome is a function of its arguments). -/
structure Bridges where
  chat : String → String → String → Except String Unit
  exec : String → List String → Except String (Int × String)
  mcp : String → String → Json → Except String Json

/-- One observable action of the scheduler, in program order: a hook
emission, a bridge invocation, or a UI event send. -/
inductive Act where
  | hook (e : HY.HookEvent)
  | chatCall (model : String) (base_url : String) (prompt : String)
  | execCall (cmd : String) (args : List String)
  | mcpCall (server : String) (method : String) (payload : Json)
  | ui (e : UiEvent)

/-- The model chosen at the top of `run_one`: the task's profile looked up
in `models.profiles`, falling back to `pick_model(Chat)`. -/
def taskModel (cfg : YamlCfg.Config) (t : TaskSpec) : YamlCfg.ModelTarget :=
  match t.model_profile with
  | some p =>
    match cfg.models.profiles p with
    | some m => m
    | none => YamlCfg.pick_model cfg .Chat
  | none => YamlCfg.pick_model cfg .Chat

/-- One iteration of the step loop of `TaskSetRunner::run_one`: returns the
actions performed and either a bridge error (propagated by `?`) or the
updated `ok` flag.  Note: no pre-hook event is emitted for any step kind;
only `Exec` emits a (post) hook event. -/
def runStep (B : Bridges) (cfg : YamlCfg.Config) (set : TaskSetSpec) (t : TaskSpec)
    (model : YamlCfg.ModelTarget) (ok : Bool) : TaskStep → List Act × Except String Bool
  | .Chat prompt model_profile =>
    let chosen := match model_profile with
      | some p =>
        match cfg.models.profiles p with
        | some m => m
        | none => model
      | none => model
    let url := chosen.base_url.getD ""
    match B.chat chosen.name url prompt with
    | .error e => ([.chatCall chosen.name url prompt], .error e)
    | .ok _ =>
      ([.chatCall chosen.name url prompt,
        .ui (.TaskProgress set.set_id t.id "chat sent")], .ok ok)
  | .Exec cmd args =>
    match B.exec cmd args with
    | .error e => ([.execCall cmd args], .error e)
    | .ok (status, _) =>
      ([.execCall cmd args,
        .ui (.TaskProgress set.set_id t.id ("exec " ++ cmd ++ " -> " ++ toString status)),
        .hook (.PostExec cmd args status)],
       .ok (if status != 0 then false else ok))
  | .McpCall server method payload =>
    match B.mcp server method payload with
    | .error e => ([.mcpCall server method payload], .error e)
    | .ok _ =>
      ([.mcpCall server method payload,
        .ui (.TaskProgress set.set_id t.id ("mcp " ++ server ++ "." ++ method))], .ok ok)
  | .Git _ args =>
    match B.exec "git" args with
    | .error e => ([.execCall "git" args], .error e)
    | .ok (status, _) =>
      ([.execCall "git" args], .ok (if status != 0 then false else ok))

/-- The step loop of `TaskSetRunner::run_one`: a bridge error aborts the
loop (the remaining steps never run). -/
def runSteps (B : Bridges) (cfg : YamlCfg.Config) (set : TaskSetSpec) (t : TaskSpec)
    (model : YamlCfg.ModelTarget) : List TaskStep → Bool → List Act × Except String Bool
  | [], ok => ([], .ok ok)
  | s :: rest, ok =>
    let out := runStep B cfg set t model ok s
    match out.2 with
    | .error e => (out.1, .error e)
    | .ok ok₂ =>
      let out₂ := runSteps B cfg set t model rest ok₂
      (out.1 ++ out₂.1, out₂.2)

/-- `TaskSetRunner::run_one` from taskset.rs: send `TaskStart` UI event,
emit the `TaskStart` hook event (result ignored), run the steps, then on
success emit the `TaskEnd` hook event and send the `TaskEnd` UI event.
A bridge error propagates (`?`), skipping both end events. -/
def run_one (B : Bridges) (cfg : YamlCfg.Config) (set : TaskSetSpec) (t : TaskSpec) :
    List Act × Except String Bool :=
  let model := taskModel cfg t
  let label := t.model_profile.getD "default"
  let pre : List Act := [.ui (.TaskStart set.set_id t.id label), .hook (.TaskStart t.name)]
  let out := runSteps B cfg set t model t.steps true
  match out.2 with
  | .error e => (pre ++ out.1, .error e)
  | .ok ok =>
    (pre ++ out.1 ++ [.hook (.TaskEnd t.name ok), .ui (.TaskEnd set.set_id t.id ok)], .ok ok)

/-- `TaskSetRunner::run_sequential` from taskset.rs: run the tasks in
order, accumulating `all_ok &= ok`; a task error propagates (`?`), so the
remaining tasks never run. -/
def run_sequential (B : Bridges) (cfg : YamlCfg.Config) (set : TaskSetSpec) :
    List TaskSpec → Bool → List Act × Except String Bool
  | [], all_ok => ([], .ok all_ok)
  | t :: rest, all_ok =>
    let out := run_one B cfg set t
    match out.2 with
    | .error e => (out.1, .error e)
    | .ok ok =>
      let out₂ := run_sequential B cfg set rest (all_ok && ok)
      (out.1 ++ out₂.1, out₂.2)

/-- Is this action one of the three bridge invocations? -/
def isBridgeCall : Act → Bool
  | .chatCall .. => true
  | .execCall .. => true
  | .mcpCall .. => true
  | _ => false

/-- Is this action the emission of a pre-hook event
(`PreToolUse`, `PreExec` or `PreMcp`)? -/
def isPreHook : Act → Bool
  | .hook (.PreToolUse ..) => true
  | .hook (.PreExec ..) => true
  | .hook (.PreMcp ..) => true
  | _ => false

/-- Is this action the emission of the `TaskEnd` hook event? -/
def isTaskEndHook : Act → Bool
  | .hook (.TaskEnd ..) => true
  | _ => false

/-- Is this action an exec-bridge invocation? -/
def isExecCall : Act → Bool
  | .execCall .. => true
  | _ => false

/-- Is this action the `TaskStart` UI event of the task with this id? -/
def isUiTaskStartOf (task_id : String) : Act → Bool
  | .ui (.TaskStart _ tid _) => tid == task_id
  | _ => false

/-- All bridge calls of this deterministic bridge set succeed. -/
def BridgesTotal (B : Bridges) : Prop :=
  (∀ m u p, ∃ x, B.chat m u p = .ok x) ∧
  (∀ c a, ∃ x, B.exec c a = .ok x) ∧
  (∀ s m pl, ∃ x, B.mcp s m pl = .ok x)

/-- The success flag a single step contributes in `run_one`: `status == 0`
for `Exec` and `Git` steps, vacuously `true` otherwise (the bridge-error
case never arises under `BridgesTotal`). -/
def stepOutcome (B : Bridges) : TaskStep → Bool
  | .Exec cmd args =>
    match B.exec cmd args with
    | .ok (st, _) => st == 0
    | .error _ => true
  | .Git _ args =>
    match B.exec "git" args with
    | .ok (st, _) => st == 0
    | .error _ => true
  | _ => true

/-- The `ok` flag `run_one` computes for a task when every bridge call
succeeds: the conjunction of its steps' outcomes. -/
def taskOutcome (B : Bridges) (t : TaskSpec) : Bool :=
  t.steps.foldl (fun ok s => ok && stepOutcome B s) true

end TS

/-! ### task.rs (the draft `TaskRunner`, using the trait-object hook
registry of hooks.rs) -/

namespace TR

/-- `GitEvent` from hooks.rs. -/
inductive GitEvent where
  | PreCommit | PostCommit | PrePush | PostPush

/-- `HookEvent` from hooks.rs (`PostExec` carries stdout/stderr lengths). -/
inductive HookEvent where
  | PreToolUse (tool : String) (args : Json)
  | PostToolUse (tool : String) (result : Json)
  | PreExec (cmd : String) (argv : List String)
  | PostExec (cmd : String) (argv : List String) (status : Int) (stdout_len : Nat) (stderr_len : Nat)
  | PreMcp (server : String) (method : String) (payload : Json)
  | PostMcp (server : String) (method : String) (payload : Json)
  | TaskStart (task_name : String)
  | TaskEnd (task_name : String) (success : Bool)
  | Git (kind : GitEvent)

/-- `HookDecision` from hooks.rs. -/
inductive HookDecision where
  | Continue
  | Deny (reason : String)
  | ModifyEnv (set : List (String × String)) (remove : List String)

/-- `TaskStep` from task.rs (`SubAgent` nests a step list). -/
inductive TaskStep where
  | Chat (prompt : String) (agent : Option String)
  | Exec (cmd : String) (args : List String)
  | McpCall (server : String) (method : String) (payload : Json)
  | Git (action : String) (args : List String)
  | SubAgent (agent : String) (steps : List TaskStep)

/-- The injected closures of `TaskRunner`: the hook registry's `emit`
(deterministic in the event, the context being fixed for a run) and the
four bridges. -/
structure Fns where
  emit : HookEvent → Except String HookDecision
  do_chat : String → Option String → Except String Unit
  do_exec : String → List String → Except String (Int × Nat × Nat)
  do_mcp : String → String → Json → Except String Json
  with_agent : String → Except String Unit

/-- One observable action of `TaskRunner::run`, in program order. -/
inductive Act where
  | hook (e : HookEvent)
  | chatCall (prompt : String) (agent : Option String)
  | execCall (cmd : String) (args : List String)
  | mcpCall (server : String) (method : String) (payload : Json)
  | agentSwitch (agent : String)

/-- The `serde_json::json!({"agent": agent, "prompt": prompt})` payload of
the chat step's `PreToolUse` event. -/
def chatArgs (prompt : String) (agent : Option String) : Json :=
  .obj [("agent", match agent with | some a => .str a | none => .null),
        ("prompt", .str prompt)]

mutual

/-- One iteration of the step loop of `TaskRunner::run`.  Chat emits
`PreToolUse`/`PostToolUse` around the bridge (a hook error propagates by
`?`; the pre decision is discarded by `let _ =`).  Exec and McpCall bail
out when their pre event returns `Deny`, and flag `ok := false` on a
non-zero exec status.  Git calls the exec bridge with no hook events.
SubAgent switches the agent profile and runs the nested steps as a nested
`TaskRunner::run` (inlined here), whose failure propagates. -/
def runStep (F : Fns) (name : String) (ok : Bool) :
    TaskStep → List Act × Except String Bool
  | .Chat prompt agent =>
    let pre : Act := .hook (.PreToolUse "chat" (chatArgs prompt agent))
    match F.emit (.PreToolUse "chat" (chatArgs prompt agent)) with
    | .error e => ([pre], .error e)
    | .ok _ =>
      match F.do_chat prompt agent with
      | .error e => ([pre, .chatCall prompt agent], .error e)
      | .ok _ =>
        match F.emit (.PostToolUse "chat" (.obj [])) with
        | .error e =>
          ([pre, .chatCall prompt agent, .hook (.PostToolUse "chat" (.obj []))], .error e)
        | .ok _ =>
          ([pre, .chatCall prompt agent, .hook (.PostToolUse "chat" (.obj []))], .ok ok)
  | .Exec cmd args =>
    let pre : Act := .hook (.PreExec cmd args)
    match F.emit (.PreExec cmd args) with
    | .error e => ([pre], .error e)
    | .ok (.Deny reason) => ([pre], .error ("denied by hook: " ++ reason))
    | .ok _ =>
      match F.do_exec cmd args with
      | .error e => ([pre, .execCall cmd args], .error e)
      | .ok (status, out_len, err_len) =>
        let post : Act := .hook (.PostExec cmd args status out_len err_len)
        match F.emit (.PostExec cmd args status out_len err_len) with
        | .error e => ([pre, .execCall cmd args, post], .error e)
        | .ok _ =>
          ([pre, .execCall cmd args, post],
           .ok (if status != 0 then false else ok))
  | .McpCall server method payload =>
    let pre : Act := .hook (.PreMcp server method payload)
    match F.emit (.PreMcp server method payload) with
    | .error e => ([pre], .error e)
    | .ok (.Deny reason) => ([pre], .error ("denied by hook: " ++ reason))
    | .ok _ =>
      match F.do_mcp server method payload with
      | .error e => ([pre, .mcpCall server method payload], .error e)
      | .ok resp =>
        let post : Act := .hook (.PostMcp server method resp)
        match F.emit (.PostMcp server method resp) with
        | .error e => ([pre, .mcpCall server method payload, post], .error e)
        | .ok _ => ([pre, .mcpCall server method payload, post], .ok ok)
  | .Git _ args =>
    match F.do_exec "git" args with
    | .error e => ([.execCall "git" args], .error e)
    | .ok (status, _, _) =>
      ([.execCall "git" args], .ok (if status != 0 then false else ok))
  | .SubAgent agent steps =>
    match F.with_agent agent with
    | .error e => ([.agentSwitch agent], .error e)
    | .ok _ =>
      let nestedName := name ++ "::" ++ agent
      let startAct : Act := .hook (.TaskStart nestedName)
      let out := runSteps F nestedName true steps
      match out.2 with
      | .error e => ([.agentSwitch agent, startAct] ++ out.1, .error e)
      | .ok nestedOk =>
        let endAct : Act := .hook (.TaskEnd nestedName nestedOk)
        if nestedOk then
          ([.agentSwitch agent, startAct] ++ out.1 ++ [endAct], .ok ok)
        else
          ([.agentSwitch agent, startAct] ++ out.1 ++ [endAct],
           .error "one or more steps failed")

/-- The step loop of `TaskRunner::run`: a step error (hook failure, deny,
bridge error, failed sub-agent) aborts the loop. -/
def runSteps (F : Fns) (name : String) (ok : Bool) :
    List TaskStep → List Act × Except String Bool
  | [] => ([], .ok ok)
  | s :: rest =>
    let out := runStep F name ok s
    match out.2 with
    | .error e => (out.1, .error e)
    | .ok ok₂ =>
      let out₂ := runSteps F name ok₂ rest
      (out.1 ++ out₂.1, out₂.2)

end

/-- `TaskRunner::run` from task.rs: emit `TaskStart` (result ignored), run
the steps, emit `TaskEnd` (result ignored), then return `Ok` iff every
exec/git status was zero. -/
def run (F : Fns) (name : String) (steps : List TaskStep) :
    List Act × Except String Unit :=
  let out := runSteps F name true steps
  match out.2 with
  | .error e => (.hook (.TaskStart name) :: out.1, .error e)
  | .ok ok =>
    (.hook (.TaskStart name) :: out.1 ++ [.hook (.TaskEnd name ok)],
     if ok then .ok () else .error "one or more steps failed")

end TR

/-! ### compact.rs (auto-trigger predicate) -/

namespace Compact

/-- `AutoCompactStage` from compact.rs. -/
inductive AutoCompactStage where
  | MidTask | EndOfTask
deriving DecidableEq

/-- `Compactor::should_autotrigger` from compact.rs.  Time is modelled by
`Nat` seconds: `last_compact` is the `Option<SystemTime>` argument and
`now` the current time, so that `t.elapsed()` is `Ok (now - t)` when
`t ≤ now` and `Err` otherwise — in the `Err` case the code falls through
to `true`. -/
def should_autotrigger (cfg : LayeredCfg.Config) (last_compact : Option Nat)
    (now : Nat) (stage : AutoCompactStage) : Bool :=
  if !cfg.compact.auto_enable then false
  else if stage == .EndOfTask && !cfg.compact.auto_on_task_end then false
  else
    match last_compact with
    | some t =>
      if t ≤ now then decide (now - t ≥ cfg.compact.auto_min_interval_secs)
      else true
    | none => true

end Compact

/-! ### session_logs.rs (redactor) -/

namespace SL

/-- `char::to_ascii_uppercase`. -/
def asciiUpper (c : Char) : Char :=
  if 'a' ≤ c ∧ c ≤ 'z' then Char.ofNat (c.toNat - 32) else c

/-- `str::to_ascii_uppercase` on the character list of a string. -/
def upperChars (s : String) : List Char := s.toList.map asciiUpper

/-- `needle.is_prefix_of hay` as a plain boolean on character lists. -/
def isPre : List Char → List Char → Bool
  | [], _ => true
  | _ :: _, [] => false
  | n :: ns, h :: hs => n == h && isPre ns hs

/-- `hay.contains(needle)` (substring search) on character lists. -/
def containsSub (hay needle : List Char) : Bool :=
  isPre needle hay ||
    match hay with
    | [] => false
    | _ :: rest => containsSub rest needle

/-- The redaction patterns of `redact_str` in session_logs.rs. -/
def patterns : List String := ["KEY", "TOKEN", "SECRET", "PASSWORD"]

/-- `redact_str` from session_logs.rs: a string whose ASCII-uppercased
form contains one of the patterns becomes `"[REDACTED]"`. -/
def redact_str (s : String) : String :=
  if patterns.any (fun p => containsSub (upperChars s) p.toList) then "[REDACTED]"
  else s

mutual

/-- `redact_json` from session_logs.rs: rewrite every string leaf through
`redact_str`, recursing into arrays and objects; other leaves unchanged. -/
def redact_json : Json → Json
  | .null => .null
  | .bool b => .bool b
  | .num n => .num n
  | .str s => .str (redact_str s)
  | .arr xs => .arr (redactArr xs)
  | .obj fields => .obj (redactObj fields)

/-- The array branch of `redact_json`. -/
def redactArr : List Json → List Json
  | [] => []
  | x :: xs => redact_json x :: redactArr xs

/-- The object branch of `redact_json` (values rewritten, keys kept). -/
def redactObj : List (String × Json) → List (String × Json)
  | [] => []
  | (k, v) :: xs => (k, redact_json v) :: redactObj xs

end

/-- Modelled from the spec: a string is sensitive when its upper-cased
form contains one of the substrings KEY, TOKEN, SECRET, PASSWORD.
Spec-side reference predicate ("contains" stated as an explicit substring
decomposition) for claim C7. -/
def SensitiveSpec (s : String) : Prop :=
  ∃ p ∈ patterns, ∃ l r, upperChars s = l ++ p.toList ++ r

end SL

/-! ### todo.rs (second draft: the JSON-backed store with timestamps) -/

namespace Todo

/-- `TodoStatus` from todo.rs. -/
inductive TodoStatus where
  | Open | InProgress | Done
deriving DecidableEq

/-- `TodoItem` from todo.rs (timestamps as opaque RFC-3339 strings). -/
structure TodoItem where
  id : String
  title : String
  description : Option String
  files : List String
  tags : List String
  status : TodoStatus
  created_at : String
  updated_at : String

/-- `TodoStore` from todo.rs. -/
structure TodoStore where
  items : List TodoItem

/-- The `iter_mut().find(|x| x.id == id)` update of
`TodoStore::set_status`: rewrite the first item whose id matches, stamping
`status` and `updated_at`; error when no item matches. -/
def setFirst (id : String) (status : TodoStatus) (now : String) :
    List TodoItem → Except String (List TodoItem)
  | [] => .error "todo not found"
  | x :: xs =>
    if x.id == id then
      .ok ({ x with status := status, updated_at := now } :: xs)
    else
      match setFirst id status now xs with
      | .error e => .error e
      | .ok xs₂ => .ok (x :: xs₂)

/-- `TodoStore::set_status` from todo.rs, with the `Utc::now().to_rfc3339()`
timestamp passed explicitly. -/
def set_status (s : TodoStore) (id : String) (status : TodoStatus) (now : String) :
    Except String TodoStore :=
  match setFirst id status now s.items with
  | .error e => .error e
  | .ok items => .ok ⟨items⟩

/-- `TodoStore::remove` from todo.rs: `retain(|x| x.id != id)`, then error
when nothing was removed. -/
def remove (s : TodoStore) (id : String) : Except String TodoStore :=
  let kept := s.items.filter (fun x => !(x.id == id))
  if kept.length == s.items.length then .error "todo not found"
  else .ok ⟨kept⟩

/-- What the filesystem holds at the to-do path: the file may be absent,
present but unreadable, or readable with some contents. -/
inductive FsEntry where
  | missing
  | unreadable
  | content (data : String)

/-- `TodoStore::load` from todo.rs: a missing file yields the default
(empty) store; otherwise the file is read (`?` on failure) and parsed
(`serde_json` is the opaque `parse` parameter; a parse failure errors). -/
def load (fs : String → FsEntry) (parse : String → Option TodoStore)
    (path : String) : Except String TodoStore :=
  match fs path with
  | .missing => .ok ⟨[]⟩
  | .unreadable => .error "read failed"
  | .content data =>
    match parse data with
    | some s => .ok s
    | none => .error "parse todo store"

end Todo

/-! ### Concrete instances used by counterexamples and witnesses -/

/-- An all-default yaml_config.rs `ModelTarget` (empty name = "absent"). -/
def mtY0 : YamlCfg.ModelTarget := ⟨"", none, none, MapS.empty⟩

/-- A concrete all-default yaml_config.rs `Config`. -/
def cfgY0 : YamlCfg.Config :=
  { models := ⟨mtY0, MapS.empty, MapS.empty⟩
    sandbox := ⟨none, none, []⟩
    shell := ⟨.OnRequest, [], [], none, []⟩
    ui := ⟨false, false⟩
    history := ⟨none⟩
    todo := ⟨none⟩
    compact := ⟨true, 120, true, 40000, 24, []⟩
    sessions := ⟨none, none, false⟩
    hooks := ⟨none, []⟩
    slash := ⟨[]⟩ }

/-- A concrete layered_config.rs default model target. -/
def mtBase : LayeredCfg.ModelTarget := ⟨"base-model", none, none, none, MapS.empty⟩

/-- A concrete layered_config.rs override target stored under key "chat". -/
def mtChatOverride : LayeredCfg.ModelTarget :=
  ⟨"chat-override-model", none, none, none, MapS.empty⟩

/-- A concrete layered_config.rs `Config` whose `models.overrides` holds an
entry under the key "chat". -/
def cfgL0 : LayeredCfg.Config :=
  { model := ⟨none, none, none⟩
    models := ⟨mtBase, MapS.ofList [("chat", mtChatOverride)], MapS.empty⟩
    sandbox := ⟨none, none, []⟩
    shell := ⟨.OnRequest, [], [], none, []⟩
    mcp := ⟨MapS.empty⟩
    ui := ⟨false, false, false, false⟩
    history := ⟨none⟩
    todo := ⟨none⟩
    compact := ⟨true, 120, true, 40000, 24, []⟩
    sessions := ⟨none, none, false, none⟩
    hooks := ⟨none, []⟩
    slash := ⟨[]⟩ }

/-- Bridges whose calls all succeed (exec exits 0). -/
def bridgesOk : TS.Bridges :=
  ⟨fun _ _ _ => .ok (), fun _ _ => .ok (0, ""), fun _ _ _ => .ok .null⟩

/-- Bridges whose chat call fails and whose exec call exits 0. -/
def bridgesChatErr : TS.Bridges :=
  ⟨fun _ _ _ => .error "chat bridge down", fun _ _ => .ok (0, ""), fun _ _ _ => .ok .null⟩

/-- Bridges whose calls all succeed, with exec exiting 1 for the command
"false" and 0 otherwise. -/
def bridgesExecFlag : TS.Bridges :=
  ⟨fun _ _ _ => .ok (),
   fun c _ => .ok (if c == "false" then 1 else 0, ""),
   fun _ _ _ => .ok .null⟩

/-- A task consisting of one exec step. -/
def taskExec1 : TS.TaskSpec := ⟨"t1", "task-1", none, [.Exec "true" []]⟩

/-- A task whose first step is a chat and whose second step is an exec. -/
def taskChatThenExec : TS.TaskSpec :=
  ⟨"t1", "task-1", none, [.Chat "hello" none, .Exec "ls" []]⟩

/-- A second simple task (one exec step). -/
def taskT2 : TS.TaskSpec := ⟨"t2", "task-2", none, [.Exec "true" []]⟩

/-- A task whose only exec step exits non-zero under `bridgesExecFlag`. -/
def taskFail : TS.TaskSpec := ⟨"tf", "task-fail", none, [.Exec "false" []]⟩

/-- A sequential set holding only `taskExec1`. -/
def set1 : TS.TaskSetSpec := ⟨"s1", "Set One", "sequential", [taskExec1]⟩

/-- A sequential set holding `taskChatThenExec` then `taskT2`. -/
def set2 : TS.TaskSetSpec := ⟨"s2", "Set Two", "sequential", [taskChatThenExec, taskT2]⟩

/-- A sequential set holding `taskFail` then `taskT2`. -/
def set5 : TS.TaskSetSpec := ⟨"s5", "Set Five", "sequential", [taskFail, taskT2]⟩

/-- A concrete hook registry: no rules, recursion limit 3 (the default). -/
def reg0 : HY.HookRegistry := ⟨[], 3, cfgY0⟩

/-- A concrete action-process environment: every child exits successfully. -/
def env0 : HY.ExecEnv := fun _ _ => .ok true

/-- A concrete hook event. -/
def ev0 : HY.HookEvent := .PreExec "true" []

/-- Concrete `TaskRunner` closures: hooks always continue, bridges always
succeed (exec exits 0). -/
def fns0 : TR.Fns :=
  ⟨fun _ => .ok .Continue,
   fun _ _ => .ok (),
   fun _ _ => .ok (0, 0, 0),
   fun _ _ _ => .ok .null,
   fun _ => .ok ()⟩

/-- "The pre action occurs before the bridge action": whenever the bridge
action occurs in the trace, the two actions occur in order as the
(order-preserving) sublist `[pre, bridge]`. -/
def TR.preBridge (pre bridge : TR.Act) (tr : List TR.Act) : Prop :=
  bridge ∈ tr → List.Sublist [pre, bridge] tr

/-- "Pre, then bridge, then post": whenever the post action occurs in the
trace, all three occur in order as the sublist `[pre, bridge, post]`. -/
def TR.preBridgePost (pre bridge post : TR.Act) (tr : List TR.Act) : Prop :=
  post ∈ tr → List.Sublist [pre, bridge, post] tr

/-- A concrete to-do item. -/
def itm0 : Todo.TodoItem :=
  ⟨"id-1", "write spec", none, [], [], .Open,
   "2026-01-01T00:00:00Z", "2026-01-01T00:00:00Z"⟩

/-- A concrete to-do store holding exactly `itm0`. -/
def store0 : Todo.TodoStore := ⟨[itm0]⟩

/-- A filesystem in which every path is missing. -/
def fsMissing : String → Todo.FsEntry := fun _ => .missing

/-- A parser that rejects every document (irrelevant on missing files). -/
def parseNone : String → Option Todo.TodoStore := fun _ => none

/-! ## Theorems -/

/-- Claim C10: `TodoStore::load` on a path that does not exist returns
success with an empty store, and an error is returned only when the file
exists. -/
theorem c10_load_missing_ok (fs : String → Todo.FsEntry)
    (parse : String → Option Todo.TodoStore) (path : String) :
    (fs path = .missing → Todo.load fs parse path = .ok ⟨[]⟩) ∧
    (∀ e, Todo.load fs parse path = .error e → fs path ≠ .missing) := by
  constructor
  · intro h
    unfold Todo.load
    rw [h]
  · intro e he h
    unfold Todo.load at he
    rw [h] at he
    simp at he

/-- Witness for C10: a concrete missing file loads as the empty store. -/
theorem c10_witness :
    fsMissing "/w/.codex/todo.json" = Todo.FsEntry.missing ∧
    Todo.load fsMissing parseNone "/w/.codex/todo.json" = .ok ⟨[]⟩ :=
  ⟨rfl, (c10_load_missing_ok fsMissing parseNone "/w/.codex/todo.json").1 rfl⟩

/-- Counterexample for claim C3: in the layered_config.rs variant,
`pick_model(Chat)` ignores the `models.overrides` entry stored under the
key "chat" and returns `models.default` instead. -/
theorem c3_counterexample :
    cfgL0.models.overrides "chat" = some mtChatOverride ∧
    LayeredCfg.pick_model cfgL0 .Chat = mtBase ∧
    LayeredCfg.pick_model cfgL0 .Chat ≠ mtChatOverride := by
  refine ⟨rfl, rfl, fun h => ?_⟩
  have hn := congrArg LayeredCfg.ModelTarget.name h
  exact absurd hn (by decide)

/-- Claim C3 (amended): the yaml_config.rs `pick_model` returns the
overrides entry under the role's key when present, else `models.default`,
for every role; the layered_config.rs `pick_model` does the same for the
five non-chat roles, but for the `Chat` role it always returns
`models.default`, never consulting the overrides. -/
theorem c3_amended_pick_model :
    (∀ (cfg : YamlCfg.Config) (role : YamlCfg.ModelRole),
        YamlCfg.pick_model cfg role = YamlCfg.pick_model_spec cfg role) ∧
    (∀ (cfg : LayeredCfg.Config) (role : LayeredCfg.ModelRole),
        role ≠ .Chat →
        LayeredCfg.pick_model cfg role = LayeredCfg.pick_model_spec cfg role) ∧
    (∀ cfg : LayeredCfg.Config,
        LayeredCfg.pick_model cfg .Chat = cfg.models.default) := by
  refine ⟨fun cfg role => rfl, fun cfg role h => ?_, fun cfg => rfl⟩
  cases role
  · exact absurd rfl h
  all_goals rfl

/-- Witness for C3: the amended statement at a concrete config and role. -/
theorem c3_witness :
    (LayeredCfg.ModelRole.Title ≠ LayeredCfg.ModelRole.Chat) ∧
    LayeredCfg.pick_model cfgL0 .Title = LayeredCfg.pick_model_spec cfgL0 .Title :=
  ⟨by decide, c3_amended_pick_model.2.1 cfgL0 .Title (by decide)⟩

/-- Claim C4: `HookRegistry::emit` never lets the depth counter exceed
`recursion_limit` — at or above the limit it returns `Continue` at once
and runs no action; below it the counter's value during `emit_inner` is
`depth + 1 ≤ recursion_limit`; and on every exit path the counter is
restored to its prior value. -/
theorem c4_recursion_guard (reg : HY.HookRegistry) (env : HY.ExecEnv)
    (depth : Nat) (ev : HY.HookEvent) :
    (reg.recursion_limit ≤ depth →
      (HY.emit reg env depth ev).result = .ok .Continue ∧
      (HY.emit reg env depth ev).ran = [] ∧
      (HY.emit reg env depth ev).during = none) ∧
    (HY.emit reg env depth ev).finalDepth = depth ∧
    (∀ d, (HY.emit reg env depth ev).during = some d →
      d ≤ reg.recursion_limit) := by
  refine ⟨fun hge => ?_, ?_, fun d hd => ?_⟩
  · simp [HY.emit, hge]
  · unfold HY.emit
    split
    · rfl
    · simp
  · unfold HY.emit at hd
    split at hd
    · simp at hd
    · next h =>
      simp at hd
      omega

/-- Witness for C4: at a concrete registry (limit 3) and depth 3, `emit`
returns `Continue` and runs no action. -/
theorem c4_witness :
    reg0.recursion_limit ≤ 3 ∧
    (HY.emit reg0 env0 3 ev0).result = .ok .Continue ∧
    (HY.emit reg0 env0 3 ev0).ran = [] :=
  ⟨by decide, ((c4_recursion_guard reg0 env0 3 ev0).1 (by decide)).1,
   ((c4_recursion_guard reg0 env0 3 ev0).1 (by decide)).2.1⟩

/-- Claim C6: under a consistent clock, `should_autotrigger` is true iff
`auto_enable` is set, the stage gate passes, and either no prior
compaction exists or at least `auto_min_interval_secs` elapsed; and it is
false whenever `auto_enable` is false, regardless of stage and time. -/
theorem c6_should_autotrigger_iff (cfg : LayeredCfg.Config)
    (last : Option Nat) (now : Nat) (stage : Compact.AutoCompactStage) :
    ((∀ t, last = some t → t ≤ now) →
      (Compact.should_autotrigger cfg last now stage = true ↔
        (cfg.compact.auto_enable = true ∧
         (stage = .EndOfTask → cfg.compact.auto_on_task_end = true) ∧
         (last = none ∨
          ∃ t, last = some t ∧ cfg.compact.auto_min_interval_secs ≤ now - t)))) ∧
    (cfg.compact.auto_enable = false →
      Compact.should_autotrigger cfg last now stage = false) := by
  constructor
  · intro hclock
    unfold Compact.should_autotrigger
    cases hae : cfg.compact.auto_enable
    · simp [hae]
    · cases stage <;> cases haot : cfg.compact.auto_on_task_end <;>
        cases last <;>
        simp_all [Compact.should_autotrigger]
  · intro hae
    unfold Compact.should_autotrigger
    simp [hae]

/-- Witness for C6: at a concrete config with `auto_enable` on, a prior
compaction 200 seconds ago and interval 120, the predicate fires. -/
theorem c6_witness :
    (∀ t, (some 0 : Option Nat) = some t → t ≤ 200) ∧
    Compact.should_autotrigger cfgL0 (some 0) 200 .MidTask = true := by
  have h : ∀ t, (some 0 : Option Nat) = some t → t ≤ 200 := by
    intro t ht
    cases ht
    omega
  refine ⟨h, ?_⟩
  exact ((c6_should_autotrigger_iff cfgL0 (some 0) 200 .MidTask).1 h).mpr
    ⟨rfl, fun hc => absurd hc (by decide), .inr ⟨0, rfl, by decide⟩⟩

/-- Inserting all entries of a map into itself changes nothing. -/
theorem MapS.mergeInto_self {α : Type} (m : MapS α) : m.mergeInto m = m := by
  funext k
  unfold MapS.mergeInto
  cases m k <;> rfl

/-- The feature-or overlay `if b then true else b` is just `b`. -/
theorem ite_true_self (b : Bool) : (if b then true else b) = b := by
  cases b <;> rfl

/-- Claim C8: both config merge functions are idempotent —
`merge(cfg, cfg) = cfg` for every yaml_config.rs and layered_config.rs
`Config` value. -/
theorem c8_merge_idempotent :
    (∀ cfg : YamlCfg.Config, YamlCfg.merge cfg cfg = cfg) ∧
    (∀ cfg : LayeredCfg.Config, LayeredCfg.merge cfg cfg = cfg) := by
  constructor
  · intro cfg
    obtain ⟨⟨d, ov, pr⟩, ⟨sm, sna, swr⟩, ⟨ap, al, dl, ei, ep⟩, ⟨cp, sb⟩, ⟨hp⟩,
      ⟨td⟩, ⟨ae, ami, aot, mcc, mf, igd⟩, ⟨sd, apd, rol⟩, ⟨rl, hd⟩, ⟨sld⟩⟩ := cfg
    simp [YamlCfg.merge, MapS.mergeInto_self, ite_true_self]
  · intro cfg
    obtain ⟨⟨mn, re, rs⟩, ⟨d, ov, pr⟩, ⟨sm, sna, swr⟩, ⟨ap, al, dl, ei, ep⟩,
      ⟨sv⟩, ⟨cp, sb, sr, kp⟩, ⟨hp⟩, ⟨td⟩, ⟨ae, ami, aot, mcc, mf, igd⟩,
      ⟨sd, apd, rol, wm⟩, ⟨rl, hd⟩, ⟨sld⟩⟩ := cfg
    simp [LayeredCfg.merge, MapS.mergeInto_self, ite_true_self]

/-- Boolean prefix test as an existential decomposition. -/
theorem SL.isPre_iff (n : List Char) :
    ∀ h, SL.isPre n h = true ↔ ∃ r, h = n ++ r := by
  induction n with
  | nil => intro h; simp [SL.isPre]
  | cons c ns ih =>
    intro h
    cases h with
    | nil => simp [SL.isPre]
    | cons x hs =>
      simp only [SL.isPre, Bool.and_eq_true, beq_iff_eq, ih, List.cons_append,
        List.cons.injEq]
      constructor
      · rintro ⟨hcx, r, hr⟩
        exact ⟨r, hcx.symm, hr⟩
      · rintro ⟨r, hxc, hr⟩
        exact ⟨hxc.symm, r, hr⟩

/-- Boolean substring test as an existential decomposition. -/
theorem SL.containsSub_iff (n : List Char) :
    ∀ h, SL.containsSub h n = true ↔ ∃ l r, h = l ++ n ++ r := by
  intro h
  induction h with
  | nil =>
    rw [SL.containsSub]
    simp only [Bool.or_false, SL.isPre_iff]
    constructor
    · rintro ⟨r, hr⟩
      exact ⟨[], r, by simpa using hr⟩
    · rintro ⟨l, r, hlr⟩
      rw [List.append_assoc] at hlr
      obtain ⟨hl, hnr⟩ := List.append_eq_nil.mp hlr.symm
      exact ⟨r, by simp [hnr.symm]⟩
  | cons c rest ih =>
    rw [SL.containsSub]
    simp only [Bool.or_eq_true, SL.isPre_iff, ih]
    constructor
    · rintro (⟨r, hr⟩ | ⟨l, r, hlr⟩)
      · exact ⟨[], r, by simpa using hr⟩
      · exact ⟨c :: l, r, by simp [hlr]⟩
    · rintro ⟨l, r, hlr⟩
      cases l with
      | nil => exact .inl ⟨r, by simpa using hlr⟩
      | cons y l' =>
        simp only [List.cons_append, List.cons.injEq] at hlr
        exact .inr ⟨l', r, hlr.2⟩

/-- The source's boolean pattern test agrees with the spec-side sensitive
predicate. -/
theorem SL.sensitive_iff (s : String) :
    (SL.patterns.any fun p => SL.containsSub (SL.upperChars s) p.toList) = true ↔
    SL.SensitiveSpec s := by
  simp [List.any_eq_true, SL.containsSub_iff, SL.SensitiveSpec]

/-- The array branch of the redactor is a map of the redactor. -/
theorem SL.redactArr_eq_map (xs : List Json) :
    SL.redactArr xs = xs.map SL.redact_json := by
  induction xs with
  | nil => rfl
  | cons x xs ih => simp [SL.redactArr, ih]

/-- The object branch of the redactor redacts values and keeps keys. -/
theorem SL.redactObj_eq_map (fields : List (String × Json)) :
    SL.redactObj fields = fields.map fun kv => (kv.1, SL.redact_json kv.2) := by
  induction fields with
  | nil => rfl
  | cons kv fields ih =>
    obtain ⟨k, v⟩ := kv
    simp [SL.redactObj, ih]

/-- Claim C7: the session-log redactor replaces exactly the strings whose
upper-cased form contains KEY, TOKEN, SECRET or PASSWORD with
`"[REDACTED]"`, recurses into arrays and objects, and leaves every other
string and every non-string leaf unchanged. -/
theorem c7_redactor :
    (∀ s, SL.SensitiveSpec s → SL.redact_json (.str s) = .str "[REDACTED]") ∧
    (∀ s, ¬ SL.SensitiveSpec s → SL.redact_json (.str s) = .str s) ∧
    (∀ xs, SL.redact_json (.arr xs) = .arr (xs.map SL.redact_json)) ∧
    (∀ fields, SL.redact_json (.obj fields) =
      .obj (fields.map fun kv => (kv.1, SL.redact_json kv.2))) ∧
    SL.redact_json .null = .null ∧
    (∀ b, SL.redact_json (.bool b) = .bool b) ∧
    (∀ n, SL.redact_json (.num n) = .num n) := by
  refine ⟨?_, ?_, ?_, ?_, rfl, fun b => rfl, fun n => rfl⟩
  · intro s hs
    have h := (SL.sensitive_iff s).mpr hs
    unfold SL.redact_json SL.redact_str
    rw [if_pos h]
  · intro s hs
    have h : (SL.patterns.any fun p => SL.containsSub (SL.upperChars s) p.toList) = false := by
      cases hc : SL.patterns.any fun p => SL.containsSub (SL.upperChars s) p.toList
      · rfl
      · exact absurd ((SL.sensitive_iff s).mp hc) hs
    unfold SL.redact_json SL.redact_str
    rw [if_neg (by rw [h]; exact Bool.false_ne_true)]
  · intro xs
    simp [SL.redact_json, SL.redactArr_eq_map]
  · intro fields
    simp [SL.redact_json, SL.redactObj_eq_map]

/-- Witness for C7: the concrete string "api_key" is sensitive and is
redacted. -/
theorem c7_witness :
    SL.SensitiveSpec "api_key" ∧
    SL.redact_json (.str "api_key") = .str "[REDACTED]" := by
  have hs : SL.SensitiveSpec "api_key" :=
    ⟨"KEY", by decide, "API_".toList, [], by decide⟩
  exact ⟨hs, c7_redactor.1 "api_key" hs⟩

/-- `setFirst` rewrites exactly the first item whose id matches. -/
theorem Todo.setFirst_found (id : String) (st : Todo.TodoStatus) (now : String) :
    ∀ (pre : List Todo.TodoItem) (x : Todo.TodoItem) (post : List Todo.TodoItem),
    (∀ y ∈ pre, y.id ≠ id) → x.id = id →
    Todo.setFirst id st now (pre ++ x :: post) =
      .ok (pre ++ { x with status := st, updated_at := now } :: post) := by
  intro pre
  induction pre with
  | nil =>
    intro x post _ hx
    simp [Todo.setFirst, hx]
  | cons y ys ih =>
    intro x post hpre hx
    have hy : ¬(y.id == id) = true := by
      simp [hpre y (by simp)]
    simp [Todo.setFirst, hy, ih x post (fun z hz => hpre z (by simp [hz])) hx]

/-- `setFirst` errors when no item's id matches. -/
theorem Todo.setFirst_absent (id : String) (st : Todo.TodoStatus) (now : String) :
    ∀ l, (∀ y ∈ l, y.id ≠ id) →
    Todo.setFirst id st now l = .error "todo not found" := by
  intro l
  induction l with
  | nil => intro _; rfl
  | cons y ys ih =>
    intro habs
    have hy : ¬(y.id == id) = true := by
      simp [habs y (by simp)]
    simp [Todo.setFirst, hy, ih (fun z hz => habs z (by simp [hz]))]

/-- Claim C9: `set_status` on a present id rewrites only that item's
`status` and `updated_at` (the new stamp is the passed clock value, hence
not earlier than the prior one under a non-decreasing clock) and leaves
every other field and every other item unchanged; on an absent id both
`set_status` and `remove` return an error, leaving the store unchanged. -/
theorem c9_set_status_frame (s : Todo.TodoStore) (id : String)
    (st : Todo.TodoStatus) (now : String) :
    (∀ pre x post, s.items = pre ++ x :: post →
      (∀ y ∈ pre, y.id ≠ id) → x.id = id →
      Todo.set_status s id st now =
        .ok ⟨pre ++ { x with status := st, updated_at := now } :: post⟩ ∧
      (x.updated_at ≤ now →
        x.updated_at ≤
          ({ x with status := st, updated_at := now } : Todo.TodoItem).updated_at)) ∧
    ((∀ y ∈ s.items, y.id ≠ id) →
      Todo.set_status s id st now = .error "todo not found" ∧
      Todo.remove s id = .error "todo not found") := by
  constructor
  · intro pre x post hitems hpre hx
    constructor
    · unfold Todo.set_status
      rw [hitems, Todo.setFirst_found id st now pre x post hpre hx]
    · intro hle
      simpa using hle
  · intro habs
    constructor
    · unfold Todo.set_status
      rw [Todo.setFirst_absent id st now s.items habs]
    · unfold Todo.remove
      have hkeep : s.items.filter (fun x => !(x.id == id)) = s.items := by
        apply List.filter_eq_self.mpr
        intro a ha
        simp [habs a ha]
      simp [hkeep]

/-- Witness for C9: marking the only item of a concrete store done. -/
theorem c9_witness :
    store0.items = [] ++ itm0 :: [] ∧ itm0.id = "id-1" ∧
    Todo.set_status store0 "id-1" .Done "2026-02-02T00:00:00Z" =
      .ok ⟨[] ++ { itm0 with status := .Done, updated_at := "2026-02-02T00:00:00Z" } :: []⟩ :=
  ⟨rfl, rfl,
   ((c9_set_status_frame store0 "id-1" .Done "2026-02-02T00:00:00Z").1
     [] itm0 [] rfl (by simp) rfl).1⟩

/-- No single scheduler step ever emits a `TaskEnd` hook event. -/
theorem TS.runStep_no_taskEnd (B : TS.Bridges) (cfg : YamlCfg.Config)
    (set : TS.TaskSetSpec) (t : TS.TaskSpec) (model : YamlCfg.ModelTarget)
    (ok : Bool) (s : TS.TaskStep) :
    (TS.runStep B cfg set t model ok s).1.any TS.isTaskEndHook = false := by
  cases s <;> simp only [TS.runStep] <;> (repeat' split) <;> simp [TS.isTaskEndHook]

/-- The scheduler's step loop never emits a `TaskEnd` hook event. -/
theorem TS.runSteps_no_taskEnd (B : TS.Bridges) (cfg : YamlCfg.Config)
    (set : TS.TaskSetSpec) (t : TS.TaskSpec) (model : YamlCfg.ModelTarget) :
    ∀ (steps : List TS.TaskStep) (ok : Bool),
    (TS.runSteps B cfg set t model steps ok).1.any TS.isTaskEndHook = false := by
  intro steps
  induction steps with
  | nil => intro ok; simp [TS.runSteps]
  | cons s rest ih =>
    intro ok
    cases h2 : (TS.runStep B cfg set t model ok s).2 with
    | error e =>
      simp [TS.runSteps, h2, TS.runStep_no_taskEnd]
    | ok ok₂ =>
      simp [TS.runSteps, h2, List.any_append, TS.runStep_no_taskEnd, ih]

/-- Claim C2 (amended): a chat/mcp bridge error during a step propagates —
the step loop stops at that step (later steps of the task never run), the
task run itself returns the error without emitting its `TaskEnd` hook, and
in a sequential set the later tasks never run: the set run returns the
error. -/
theorem c2_amended_bridge_error_aborts (B : TS.Bridges) (cfg : YamlCfg.Config)
    (set : TS.TaskSetSpec) :
    (∀ t model ok s rest e,
      (TS.runStep B cfg set t model ok s).2 = .error e →
      TS.runSteps B cfg set t model (s :: rest) ok =
        ((TS.runStep B cfg set t model ok s).1, .error e)) ∧
    (∀ t ts all_ok e,
      (TS.run_one B cfg set t).2 = .error e →
      TS.run_sequential B cfg set (t :: ts) all_ok =
        ((TS.run_one B cfg set t).1, .error e)) ∧
    (∀ t e,
      (TS.runSteps B cfg set t (TS.taskModel cfg t) t.steps true).2 = .error e →
      (TS.run_one B cfg set t).2 = .error e ∧
      (TS.run_one B cfg set t).1.any TS.isTaskEndHook = false) := by
  refine ⟨?_, ?_, ?_⟩
  · intro t model ok s rest e h
    simp only [TS.runSteps, h]
  · intro t ts all_ok e h
    simp only [TS.run_sequential, h]
  · intro t e h
    unfold TS.run_one
    simp only [h]
    refine ⟨by simp, ?_⟩
    simp [List.any_append, TS.isTaskEndHook, TS.runSteps_no_taskEnd]

/-- Counterexample for claim C2: with a failing chat bridge, the task
`taskChatThenExec` aborts at its first step — the second step's exec
bridge is never invoked, no `TaskEnd` hook is emitted, and in the
sequential set the second task never starts. -/
theorem c2_counterexample :
    (TS.run_one bridgesChatErr cfgY0 set2 taskChatThenExec).2 =
      .error "chat bridge down" ∧
    (TS.run_one bridgesChatErr cfgY0 set2 taskChatThenExec).1.any TS.isExecCall = false ∧
    (TS.run_one bridgesChatErr cfgY0 set2 taskChatThenExec).1.any TS.isTaskEndHook = false ∧
    (TS.run_sequential bridgesChatErr cfgY0 set2 set2.tasks true).1.any
      (TS.isUiTaskStartOf "t2") = false :=
  ⟨rfl, rfl, rfl, rfl⟩

/-- Witness for C2: the amended statement applied to the concrete failing
bridge, task and set. -/
theorem c2_witness :
    (TS.run_one bridgesChatErr cfgY0 set2 taskChatThenExec).2 =
      .error "chat bridge down" ∧
    TS.run_sequential bridgesChatErr cfgY0 set2 (taskChatThenExec :: [taskT2]) true =
      ((TS.run_one bridgesChatErr cfgY0 set2 taskChatThenExec).1,
       .error "chat bridge down") :=
  ⟨rfl,
   (c2_amended_bridge_error_aborts bridgesChatErr cfgY0 set2).2.1
     taskChatThenExec [taskT2] true "chat bridge down" rfl⟩

/-- When every bridge call succeeds, a scheduler step returns `Ok` with
the conjunction of the incoming flag and the step's own outcome, and its
trace does not depend on the incoming flag. -/
theorem TS.runStep_total (B : TS.Bridges) (hB : TS.BridgesTotal B)
    (cfg : YamlCfg.Config) (set : TS.TaskSetSpec) (t : TS.TaskSpec)
    (model : YamlCfg.ModelTarget) (ok : Bool) (s : TS.TaskStep) :
    (TS.runStep B cfg set t model ok s).2 = .ok (ok && TS.stepOutcome B s) ∧
    (TS.runStep B cfg set t model ok s).1 = (TS.runStep B cfg set t model true s).1 := by
  obtain ⟨hc, he, hm⟩ := hB
  cases s with
  | Chat prompt mp =>
    cases mp with
    | none =>
      obtain ⟨x, hx⟩ := hc model.name (model.base_url.getD "") prompt
      simp [TS.runStep, hx, TS.stepOutcome]
    | some p =>
      cases hpp : cfg.models.profiles p with
      | none =>
        obtain ⟨x, hx⟩ := hc model.name (model.base_url.getD "") prompt
        simp [TS.runStep, hpp, hx, TS.stepOutcome]
      | some m =>
        obtain ⟨x, hx⟩ := hc m.name (m.base_url.getD "") prompt
        simp [TS.runStep, hpp, hx, TS.stepOutcome]
  | Exec cmd args =>
    obtain ⟨⟨st, outp⟩, hx⟩ := he cmd args
    cases hst : st == 0 <;>
      simp_all [TS.runStep, TS.stepOutcome, bne]
  | McpCall server method payload =>
    obtain ⟨x, hx⟩ := hm server method payload
    simp [TS.runStep, hx, TS.stepOutcome]
  | Git action args =>
    obtain ⟨⟨st, outp⟩, hx⟩ := he "git" args
    cases hst : st == 0 <;>
      simp_all [TS.runStep, TS.stepOutcome, bne]

/-- When every bridge call succeeds, the scheduler's step loop runs every
step — its trace is the concatenation of all the steps' traces — and
returns the fold of the steps' outcomes over the incoming flag. -/
theorem TS.runSteps_total (B : TS.Bridges) (hB : TS.BridgesTotal B)
    (cfg : YamlCfg.Config) (set : TS.TaskSetSpec) (t : TS.TaskSpec)
    (model : YamlCfg.ModelTarget) :
    ∀ (steps : List TS.TaskStep) (ok : Bool),
    (TS.runSteps B cfg set t model steps ok).2 =
      .ok (steps.foldl (fun a s => a && TS.stepOutcome B s) ok) ∧
    (TS.runSteps B cfg set t model steps ok).1 =
      (steps.map fun s => (TS.runStep B cfg set t model true s).1).flatten := by
  intro steps
  induction steps with
  | nil => intro ok; simp [TS.runSteps]
  | cons s rest ih =>
    intro ok
    have h1 := TS.runStep_total B hB cfg set t model ok s
    constructor
    · simp only [TS.runSteps, h1.1, (ih (ok && TS.stepOutcome B s)).1, List.foldl_cons]
    · simp only [TS.runSteps, h1.1, (ih (ok && TS.stepOutcome B s)).2, h1.2,
        List.map_cons, List.flatten_cons]

/-- When every bridge call succeeds, `run_one` returns `Ok` with the
conjunction of the task's step outcomes. -/
theorem TS.run_one_total (B : TS.Bridges) (hB : TS.BridgesTotal B)
    (cfg : YamlCfg.Config) (set : TS.TaskSetSpec) (t : TS.TaskSpec) :
    (TS.run_one B cfg set t).2 = .ok (TS.taskOutcome B t) := by
  unfold TS.run_one
  simp only [(TS.runSteps_total B hB cfg set t (TS.taskModel cfg t) t.steps true).1]
  rfl

/-- Claim C5: when every bridge call returns (in particular when exec
returns a non-zero exit code), nothing errors — `run_one` yields the
conjunction of its steps' `status == 0` outcomes, a sequential set yields
the conjunction of its tasks' outcomes (a failing task does not abort the
later ones), and every step of a task contributes its trace (the next
step still runs after a non-zero exit). -/
theorem c5_nonzero_exit_not_error (B : TS.Bridges) (hB : TS.BridgesTotal B)
    (cfg : YamlCfg.Config) (set : TS.TaskSetSpec) :
    (∀ t, (TS.run_one B cfg set t).2 = .ok (TS.taskOutcome B t)) ∧
    (∀ tasks all_ok, (TS.run_sequential B cfg set tasks all_ok).2 =
      .ok (tasks.foldl (fun acc t => acc && TS.taskOutcome B t) all_ok)) ∧
    (∀ t model steps ok, (TS.runSteps B cfg set t model steps ok).1 =
      (steps.map fun s => (TS.runStep B cfg set t model true s).1).flatten) := by
  refine ⟨fun t => TS.run_one_total B hB cfg set t, ?_,
    fun t model steps ok => (TS.runSteps_total B hB cfg set t model steps ok).2⟩
  intro tasks
  induction tasks with
  | nil => intro all_ok; simp [TS.run_sequential]
  | cons t ts ih =>
    intro all_ok
    simp only [TS.run_sequential, TS.run_one_total B hB cfg set t,
      ih (all_ok && TS.taskOutcome B t), List.foldl_cons]

/-- Witness for C5: under concrete bridges where `exec "false"` exits 1,
the sequential set runs both tasks and yields the conjunction `false`. -/
theorem c5_witness :
    TS.BridgesTotal bridgesExecFlag ∧
    (TS.run_sequential bridgesExecFlag cfgY0 set5 [taskFail, taskT2] true).2 =
      .ok false := by
  have hB : TS.BridgesTotal bridgesExecFlag :=
    ⟨fun m u p => ⟨(), rfl⟩,
     fun c a => ⟨(if c == "false" then 1 else 0, ""), rfl⟩,
     fun s m pl => ⟨.null, rfl⟩⟩
  refine ⟨hB, ?_⟩
  have h := (c5_nonzero_exit_not_error bridgesExecFlag hB cfgY0 set5).2.1
    [taskFail, taskT2] true
  rw [h]
  rfl

/-- The first two elements of a three-element list form a sublist. -/
theorem sublist_pair_of_triple {α : Type} (a b c : α) :
    List.Sublist [a, b] [a, b, c] :=
  List.Sublist.cons₂ _ (List.Sublist.cons₂ _ (List.Sublist.cons _ List.Sublist.slnil))

/-- No single scheduler step ever emits a pre-hook event. -/
theorem TS.runStep_no_pre (B : TS.Bridges) (cfg : YamlCfg.Config)
    (set : TS.TaskSetSpec) (t : TS.TaskSpec) (model : YamlCfg.ModelTarget)
    (ok : Bool) (s : TS.TaskStep) :
    (TS.runStep B cfg set t model ok s).1.any TS.isPreHook = false := by
  cases s <;> simp only [TS.runStep] <;> (repeat' split) <;> simp [TS.isPreHook]

/-- The scheduler's step loop never emits a pre-hook event. -/
theorem TS.runSteps_no_pre (B : TS.Bridges) (cfg : YamlCfg.Config)
    (set : TS.TaskSetSpec) (t : TS.TaskSpec) (model : YamlCfg.ModelTarget) :
    ∀ (steps : List TS.TaskStep) (ok : Bool),
    (TS.runSteps B cfg set t model steps ok).1.any TS.isPreHook = false := by
  intro steps
  induction steps with
  | nil => intro ok; simp [TS.runSteps]
  | cons s rest ih =>
    intro ok
    cases h2 : (TS.runStep B cfg set t model ok s).2 with
    | error e => simp [TS.runSteps, h2, TS.runStep_no_pre]
    | ok ok₂ => simp [TS.runSteps, h2, List.any_append, TS.runStep_no_pre, ih]

/-- `TaskSetRunner::run_one` never emits a pre-hook event. -/
theorem TS.run_one_no_pre (B : TS.Bridges) (cfg : YamlCfg.Config)
    (set : TS.TaskSetSpec) (t : TS.TaskSpec) :
    (TS.run_one B cfg set t).1.any TS.isPreHook = false := by
  unfold TS.run_one
  cases h2 : (TS.runSteps B cfg set t (TS.taskModel cfg t) t.steps true).2 <;>
    simp [h2, List.any_append, TS.runSteps_no_pre, TS.isPreHook]

/-- Claim C1 (amended): in the draft `TaskRunner::run` of task.rs, every
Chat, Exec and McpCall step emits its matching pre-hook event before
invoking the bridge and its matching post-hook event only after the
bridge has been invoked; the scheduler of taskset.rs, in contrast, never
emits any pre-hook event (its `run_one` invokes the bridges without one —
Git steps of task.rs likewise carry no hook events). -/
theorem c1_amended_pre_bridge_post_order (F : TR.Fns) (name : String) (ok : Bool) :
    (∀ prompt agent,
      TR.preBridge (.hook (.PreToolUse "chat" (TR.chatArgs prompt agent)))
        (.chatCall prompt agent)
        (TR.runStep F name ok (.Chat prompt agent)).1 ∧
      TR.preBridgePost (.hook (.PreToolUse "chat" (TR.chatArgs prompt agent)))
        (.chatCall prompt agent) (.hook (.PostToolUse "chat" (.obj [])))
        (TR.runStep F name ok (.Chat prompt agent)).1) ∧
    (∀ cmd args,
      TR.preBridge (.hook (.PreExec cmd args)) (.execCall cmd args)
        (TR.runStep F name ok (.Exec cmd args)).1 ∧
      ∀ st ol el,
        TR.preBridgePost (.hook (.PreExec cmd args)) (.execCall cmd args)
          (.hook (.PostExec cmd args st ol el))
          (TR.runStep F name ok (.Exec cmd args)).1) ∧
    (∀ server method payload,
      TR.preBridge (.hook (.PreMcp server method payload))
        (.mcpCall server method payload)
        (TR.runStep F name ok (.McpCall server method payload)).1 ∧
      ∀ resp,
        TR.preBridgePost (.hook (.PreMcp server method payload))
          (.mcpCall server method payload) (.hook (.PostMcp server method resp))
          (TR.runStep F name ok (.McpCall server method payload)).1) ∧
    (∀ (B : TS.Bridges) (cfg : YamlCfg.Config) (set : TS.TaskSetSpec)
       (t : TS.TaskSpec),
      (TS.run_one B cfg set t).1.any TS.isPreHook = false) := by
  refine ⟨?_, ?_, ?_, fun B cfg set t => TS.run_one_no_pre B cfg set t⟩
  · intro prompt agent
    cases hp : F.emit (.PreToolUse "chat" (TR.chatArgs prompt agent)) with
    | error e =>
      simp only [TR.runStep, hp]
      exact ⟨fun hmem => absurd hmem (by simp), fun hmem => absurd hmem (by simp)⟩
    | ok d =>
      cases hb : F.do_chat prompt agent with
      | error e =>
        simp only [TR.runStep, hp, hb]
        refine ⟨fun _ => List.Sublist.refl _, fun hmem => absurd hmem (by simp)⟩
      | ok u =>
        cases hq : F.emit (.PostToolUse "chat" (.obj [])) with
        | error e =>
          simp only [TR.runStep, hp, hb, hq]
          exact ⟨fun _ => sublist_pair_of_triple _ _ _, fun _ => List.Sublist.refl _⟩
        | ok d₂ =>
          simp only [TR.runStep, hp, hb, hq]
          exact ⟨fun _ => sublist_pair_of_triple _ _ _, fun _ => List.Sublist.refl _⟩
  · intro cmd args
    cases hp : F.emit (.PreExec cmd args) with
    | error e =>
      simp only [TR.runStep, hp]
      exact ⟨fun hmem => absurd hmem (by simp),
             fun st ol el hmem => absurd hmem (by simp)⟩
    | ok d =>
      cases d with
      | Deny reason =>
        simp only [TR.runStep, hp]
        exact ⟨fun hmem => absurd hmem (by simp),
               fun st ol el hmem => absurd hmem (by simp)⟩
      | Continue =>
        cases hb : F.do_exec cmd args with
        | error e =>
          simp only [TR.runStep, hp, hb]
          refine ⟨fun _ => List.Sublist.refl _,
                  fun st ol el hmem => absurd hmem (by simp)⟩
        | ok r =>
          obtain ⟨st₀, ol₀, el₀⟩ := r
          cases hq : F.emit (.PostExec cmd args st₀ ol₀ el₀) with
          | error e =>
            simp only [TR.runStep, hp, hb, hq]
            refine ⟨fun _ => sublist_pair_of_triple _ _ _, fun st ol el hmem => ?_⟩
            simp only [List.mem_cons, List.mem_singleton, List.not_mem_nil,
              or_false] at hmem
            rcases hmem with h | h | h <;> simp at h
            obtain ⟨h1, h2, h3⟩ := h
            subst h1; subst h2; subst h3
            exact List.Sublist.refl _
          | ok d₂ =>
            simp only [TR.runStep, hp, hb, hq]
            refine ⟨fun _ => sublist_pair_of_triple _ _ _, fun st ol el hmem => ?_⟩
            simp only [List.mem_cons, List.mem_singleton, List.not_mem_nil,
              or_false] at hmem
            rcases hmem with h | h | h <;> simp at h
            obtain ⟨h1, h2, h3⟩ := h
            subst h1; subst h2; subst h3
            exact List.Sublist.refl _
      | ModifyEnv sets removes =>
        cases hb : F.do_exec cmd args with
        | error e =>
          simp only [TR.runStep, hp, hb]
          refine ⟨fun _ => List.Sublist.refl _,
                  fun st ol el hmem => absurd hmem (by simp)⟩
        | ok r =>
          obtain ⟨st₀, ol₀, el₀⟩ := r
          cases hq : F.emit (.PostExec cmd args st₀ ol₀ el₀) with
          | error e =>
            simp only [TR.runStep, hp, hb, hq]
            refine ⟨fun _ => sublist_pair_of_triple _ _ _, fun st ol el hmem => ?_⟩
            simp only [List.mem_cons, List.mem_singleton, List.not_mem_nil,
              or_false] at hmem
            rcases hmem with h | h | h <;> simp at h
            obtain ⟨h1, h2, h3⟩ := h
            subst h1; subst h2; subst h3
            exact List.Sublist.refl _
          | ok d₂ =>
            simp only [TR.runStep, hp, hb, hq]
            refine ⟨fun _ => sublist_pair_of_triple _ _ _, fun st ol el hmem => ?_⟩
            simp only [List.mem_cons, List.mem_singleton, List.not_mem_nil,
              or_false] at hmem
            rcases hmem with h | h | h <;> simp at h
            obtain ⟨h1, h2, h3⟩ := h
            subst h1; subst h2; subst h3
            exact List.Sublist.refl _
  · intro server method payload
    cases hp : F.emit (.PreMcp server method payload) with
    | error e =>
      simp only [TR.runStep, hp]
      exact ⟨fun hmem => absurd hmem (by simp),
             fun resp hmem => absurd hmem (by simp)⟩
    | ok d =>
      cases d with
      | Deny reason =>
        simp only [TR.runStep, hp]
        exact ⟨fun hmem => absurd hmem (by simp),
               fun resp hmem => absurd hmem (by simp)⟩
      | Continue =>
        cases hb : F.do_mcp server method payload with
        | error e =>
          simp only [TR.runStep, hp, hb]
          refine ⟨fun _ => List.Sublist.refl _,
                  fun resp hmem => absurd hmem (by simp)⟩
        | ok resp₀ =>
          cases hq : F.emit (.PostMcp server method resp₀) with
          | error e =>
            simp only [TR.runStep, hp, hb, hq]
            refine ⟨fun _ => sublist_pair_of_triple _ _ _, fun resp hmem => ?_⟩
            simp only [List.mem_cons, List.mem_singleton, List.not_mem_nil,
              or_false] at hmem
            rcases hmem with h | h | h <;> simp at h
            subst h
            exact List.Sublist.refl _
          | ok d₂ =>
            simp only [TR.runStep, hp, hb, hq]
            refine ⟨fun _ => sublist_pair_of_triple _ _ _, fun resp hmem => ?_⟩
            simp only [List.mem_cons, List.mem_singleton, List.not_mem_nil,
              or_false] at hmem
            rcases hmem with h | h | h <;> simp at h
            subst h
            exact List.Sublist.refl _
      | ModifyEnv sets removes =>
        cases hb : F.do_mcp server method payload with
        | error e =>
          simp only [TR.runStep, hp, hb]
          refine ⟨fun _ => List.Sublist.refl _,
                  fun resp hmem => absurd hmem (by simp)⟩
        | ok resp₀ =>
          cases hq : F.emit (.PostMcp server method resp₀) with
          | error e =>
            simp only [TR.runStep, hp, hb, hq]
            refine ⟨fun _ => sublist_pair_of_triple _ _ _, fun resp hmem => ?_⟩
            simp only [List.mem_cons, List.mem_singleton, List.not_mem_nil,
              or_false] at hmem
            rcases hmem with h | h | h <;> simp at h
            subst h
            exact List.Sublist.refl _
          | ok d₂ =>
            simp only [TR.runStep, hp, hb, hq]
            refine ⟨fun _ => sublist_pair_of_triple _ _ _, fun resp hmem => ?_⟩
            simp only [List.mem_cons, List.mem_singleton, List.not_mem_nil,
              or_false] at hmem
            rcases hmem with h | h | h <;> simp at h
            subst h
            exact List.Sublist.refl _

/-- Counterexample for claim C1: on a concrete one-exec-step task, the
scheduler (`TaskSetRunner::run_one`) invokes the exec bridge although its
trace contains no pre-hook emission at all — no pre-event precedes the
bridge call. -/
theorem c1_counterexample :
    (TS.run_one bridgesOk cfgY0 set1 taskExec1).1.any TS.isBridgeCall = true ∧
    (TS.run_one bridgesOk cfgY0 set1 taskExec1).1.any TS.isPreHook = false :=
  ⟨rfl, rfl⟩

/-- Witness for C1: the amended per-step ordering at concrete closures —
the chat bridge call of a concrete chat step is preceded by its
`PreToolUse` emission. -/
theorem c1_witness :
    TR.Act.chatCall "hi" none ∈ (TR.runStep fns0 "task-1" true (.Chat "hi" none)).1 ∧
    List.Sublist
      [TR.Act.hook (.PreToolUse "chat" (TR.chatArgs "hi" none)),
       TR.Act.chatCall "hi" none]
      (TR.runStep fns0 "task-1" true (.Chat "hi" none)).1 := by
  have hmem : TR.Act.chatCall "hi" none ∈
      (TR.runStep fns0 "task-1" true (.Chat "hi" none)).1 := by
    simp [TR.runStep, fns0]
  exact ⟨hmem,
    ((c1_amended_pre_bridge_post_order fns0 "task-1" true).1 "hi" none).1 hmem⟩

end CodexAnnex
